import Mathlib

/-!
Verification development for the go-plugin-framework repository.

The Go sources are shallowly embedded: structs become Lean structures, maps
become association lists (`List (String × _)`), fallible operations return
`Except`/`Option` or carry an explicit error component, and interactions with
the operating system (process start, handshake wait, filesystem walk, signal
delivery, socket probes) are threaded through explicit environment records so
that each code path of the Go functions is represented as a pure function of
its inputs.
-/

namespace GoPluginFramework

/-! ## types/types.go -/

/-- `types.ConnectionType` is a string type in Go (`type ConnectionType string`). -/
abbrev ConnectionType := String

/-- `types.TCP`. -/
def TCP : ConnectionType := "tcp"

/-- `types.Socket`. -/
def Socket : ConnectionType := "unix"

/-- `types.ConfigData`: one opaque configuration entry.  Go's `[]byte` is a list
of byte values (`Nat`, meaningful when `< 256`). -/
structure ConfigData where
  type : String
  data : List Nat
deriving DecidableEq

/-- `types.Config`: the document handed to a spawned plugin.  `IdleTimeout` is a
`*time.Duration` (optional 64-bit nanosecond count, here `Option Int`);
`ConfigTypes` is a slice (empty list models both nil and empty). -/
structure Config where
  id : String
  type : ConnectionType
  idleTimeout : Option Int
  configTypes : List ConfigData
deriving DecidableEq

/-- `types.TypeInfo`: a supported type name plus its opaque JSON schema bytes. -/
structure TypeInfo where
  type : String
  jsonSchema : List Nat
deriving DecidableEq

/-- `types.Plugin`: a discovered plugin descriptor.  The Go struct also carries
the `*exec.Cmd` process handle; its observable outcomes (start success,
handshake result, signal delivery) are supplied by environment records at the
call sites that exercise them.  `Types` is the declared capability map. -/
structure Plugin where
  id : String
  path : String
  config : Config
  types : List (String × List TypeInfo)
deriving DecidableEq

/-- `contracts.PluginBase` is an interface; an internal implementation is an
opaque in-process value, modelled as a tagged token. -/
structure PluginBase where
  tag : Nat
deriving DecidableEq

/-! ## registry/registry.go -/

/-- `registry.ExternalPluginWrapper`: the wire handle published for an external
plugin (client + location + connection type + descriptor reference). -/
structure ExternalPluginWrapper where
  location : String
  connectionType : ConnectionType
  pluginId : String
deriving DecidableEq

/-- `registry.ExternalPlugin`: a running external plugin entry (descriptor plus
its wrapper client). -/
structure ExternalPlugin where
  plugin : Plugin
  client : ExternalPluginWrapper
deriving DecidableEq

/-- `registry.Registry`: the two provider maps, keyed by capability type name. -/
structure Registry where
  internalPlugins : List (String × PluginBase)
  externalPlugins : List (String × ExternalPlugin)
deriving DecidableEq

/-- The error values produced by the registry methods, tagged by the data each
`fmt.Errorf` interpolates. -/
inductive RegErr where
  | internalAlreadyRegistered (pluginType : String)
  | externalAlreadyRegistered (pluginType : String)
  | startFailed (id : String)
  | waitFailed (id : String)
  | notFound (pluginType : String)
deriving DecidableEq

/-- `Registry.RegisterInternal` (registry.go:44-54): under the write lock, fail
if the INTERNAL map already has the type (the external map is not consulted),
else bind the implementation.  Returns the post-state and an optional error;
the Go method mutates its receiver only on the success path. -/
def RegisterInternal (r : Registry) (pluginType : String) (plugin : PluginBase) :
    Registry × Option RegErr :=
  match r.internalPlugins.lookup pluginType with
  | some _ => (r, some (.internalAlreadyRegistered pluginType))
  | none => ({ r with internalPlugins := (pluginType, plugin) :: r.internalPlugins }, none)

/-- The declared capability type names of a descriptor (`range plugin.Types`). -/
def typeKeys (p : Plugin) : List String := p.types.map Prod.fst

/-- The conflict scan at the top of `Registry.AddExternalPlugin`
(registry.go:62-69): for each declared type, internal map first, then external
map; the first hit produces the corresponding error. -/
def findConflict (r : Registry) : List String → Option RegErr
  | [] => none
  | t :: ts =>
    if (r.internalPlugins.lookup t).isSome then some (.internalAlreadyRegistered t)
    else if (r.externalPlugins.lookup t).isSome then some (.externalAlreadyRegistered t)
    else findConflict r ts

/-- A capability type name is claimed when either map has an entry for it. -/
def isClaimed (r : Registry) (t : String) : Bool :=
  (r.internalPlugins.lookup t).isSome || (r.externalPlugins.lookup t).isSome

/-- The publication loop of `Registry.AddExternalPlugin` (registry.go:96-98):
store the entry under every declared type. -/
def publishAll (keys : List String) (ep : ExternalPlugin)
    (m : List (String × ExternalPlugin)) : List (String × ExternalPlugin) :=
  keys.foldl (fun acc t => (t, ep) :: acc) m

/-- Outcomes of the process-facing steps inside `AddExternalPlugin`:
`plugin.Cmd.Start()` and `plugins.WaitForPlugin` (which on success yields the
handshake location). -/
structure SpawnEnv where
  startOk : Bool
  handshake : Option String

/-- `Registry.AddExternalPlugin` (registry.go:57-101).  Result components:
post-state, optional error, and whether `Cmd.Start` was invoked (the conflict
check precedes the spawn).  On every error path the Go method has performed no
map write, so the post-state is the input state. -/
def AddExternalPlugin (env : SpawnEnv) (r : Registry) (p : Plugin) :
    Registry × Option RegErr × Bool :=
  match findConflict r (typeKeys p) with
  | some e => (r, some e, false)
  | none =>
    if env.startOk then
      match env.handshake with
      | none => (r, some (.waitFailed p.id), true)
      | some loc =>
        let pluginWrapper : ExternalPluginWrapper :=
          { location := loc, connectionType := p.config.type, pluginId := p.id }
        let externalPlugin : ExternalPlugin := { plugin := p, client := pluginWrapper }
        ({ r with externalPlugins := publishAll (typeKeys p) externalPlugin r.externalPlugins },
          none, true)
    else (r, some (.startFailed p.id), true)

/-- The result a `GetPlugin` caller can observe: an internal implementation or
an external plugin's wrapper client. -/
inductive PluginHandle where
  | internal (p : PluginBase)
  | external (w : ExternalPluginWrapper)
deriving DecidableEq

/-- `Registry.GetPlugin` (registry.go:104-119): internal map first, then
external map, else a not-found error naming the type. -/
def GetPlugin (r : Registry) (pluginType : String) : Except RegErr PluginHandle :=
  match r.internalPlugins.lookup pluginType with
  | some plugin => .ok (.internal plugin)
  | none =>
    match r.externalPlugins.lookup pluginType with
    | some externalPlugin => .ok (.external externalPlugin.client)
    | none => .error (.notFound pluginType)

/-- The loop body of `Registry.Shutdown` (registry.go:129-140): walk the
external entries, skip descriptor IDs already processed, signal each new one
(`sigOk id` is the delivery outcome), collecting the signalled IDs and the
failed IDs in iteration order. -/
def shutdownLoop (sigOk : String → Bool) :
    List (String × ExternalPlugin) → List String → List String × List String
  | [], _ => ([], [])
  | (_, externalPlugin) :: rest, processed =>
    if externalPlugin.plugin.id ∈ processed then
      shutdownLoop sigOk rest processed
    else
      let out := shutdownLoop sigOk rest (externalPlugin.plugin.id :: processed)
      (externalPlugin.plugin.id :: out.1,
        (if sigOk externalPlugin.plugin.id then [] else [externalPlugin.plugin.id]) ++ out.2)

/-- `Registry.Shutdown` (registry.go:122-147): post-state (the method performs
no map writes, so it is the input state), the list of signalled descriptor
IDs, and the joined error (`none` when no delivery failed). -/
def Shutdown (sigOk : String → Bool) (r : Registry) :
    Registry × List String × Option (List String) :=
  let out := shutdownLoop sigOk r.externalPlugins []
  (r, out.1, if out.2.isEmpty then none else some out.2)

/-! ## manager (plugin manager source file) -/

/-- The cut set handed to `strings.Trim` in `cleanPath`: comma, semicolon,
colon, single quote, double quote, pipe, ampersand, asterisk, exclamation,
at, hash, dollar. -/
def trimCutset : List Char := ",;:\x27\x22|&*!@#$".data

/-- Membership in the `cleanPath` cut set. -/
def inCutset (c : Char) : Bool := trimCutset.contains c

/-- `cleanPath` (manager source): `strings.Trim(path, cutset)` — remove the
longest run of cut-set characters from the FRONT and from the BACK of the
string; interior characters are untouched. -/
def cleanPath (path : List Char) : List Char :=
  ((path.dropWhile inCutset).reverse.dropWhile inCutset).reverse

/-- Manager-level error values. -/
inductive MgrErr where
  | tempDirFailed
  | closeFailed
  | connTypeFailed
  | walkFailed
  | noPluginsFound (wrappedByDiscovery : Bool)
deriving DecidableEq

/-- Whether an error is (or wraps, in the `errors.Is` sense)
`ErrNoPluginsFound`. -/
def isNoPluginsFound : MgrErr → Bool
  | .noPluginsFound _ => true
  | _ => false

/-- Operating-system outcomes for `determineConnectionType`: creation of the
scratch temp directory, the Unix-socket listen, and the listener close. -/
structure ProbeEnv where
  mkdirOk : Bool
  listenOk : Bool
  closeOk : Bool
deriving DecidableEq

/-- `determineConnectionType` (manager source): make a temp dir (error on
failure), listen on a throwaway Unix socket (`TCP` on failure), close the
listener (error on failure), else `Socket`. -/
def determineConnectionType (env : ProbeEnv) : Except MgrErr ConnectionType :=
  if env.mkdirOk then
    if env.listenOk then
      if env.closeOk then .ok Socket else .error .closeFailed
    else .ok TCP
  else .error .tempDirFailed

/-- `filepath.Ext` applied to a file name: the suffix starting at the final
dot before any path separator; empty when there is no dot. -/
def goExt (name : List Char) : List Char :=
  let r := name.reverse
  let pre := r.takeWhile (fun c => !(c == '.' || c == '/'))
  match r.dropWhile (fun c => !(c == '.' || c == '/')) with
  | '.' :: _ => '.' :: pre.reverse
  | _ => []

/-- `filepath.Base`: the last element of the path (trailing separators
removed); `"."` for an empty path, `"/"` for an all-separator path. -/
def goBase (path : List Char) : List Char :=
  if path.isEmpty then ['.']
  else
    let t := path.reverse.dropWhile (fun c => c == '/')
    if t.isEmpty then ['/'] else (t.takeWhile (fun c => !(c == '/'))).reverse

/-- One entry seen by the `filepath.Walk` callback in `fetchPlugins`. -/
structure DirEntry where
  path : String
  name : String
  isDir : Bool
deriving DecidableEq

/-- Outcome of walking the plugin directory: the root is missing (the callback
sees `os.IsNotExist` and returns `ErrNoPluginsFound`), the walk reports some
other filesystem error (which the callback propagates unchanged), or the walk
yields a list of entries. -/
inductive WalkResult where
  | missing
  | errored
  | entries (l : List DirEntry)
deriving DecidableEq

/-- The candidate filter inside the `fetchPlugins` walk callback: skip
directories, skip names with a filename extension, skip IDs rejected by the
caller's filter; survivors become descriptors carrying the shared config. -/
def candidateList (conf : Config) (l : List DirEntry) (filter : String → Bool) :
    List Plugin :=
  l.filterMap (fun e =>
    if e.isDir then none
    else if !(goExt e.name.data).isEmpty then none
    else
      let id := String.mk (goBase e.path.data)
      if filter id then some { id := id, path := e.path, config := conf, types := [] }
      else none)

/-- `PluginManager.fetchPlugins` (manager source): a missing directory aborts
with `ErrNoPluginsFound` (wrapped by the discovery error); any other walk
error propagates as a generic discovery error that is NOT `ErrNoPluginsFound`;
otherwise the surviving candidates are returned. -/
def fetchPlugins (conf : Config) (walk : WalkResult) (filter : String → Bool) :
    Except MgrErr (List Plugin) :=
  match walk with
  | .missing => .error (.noPluginsFound true)
  | .errored => .error .walkFailed
  | .entries l => .ok (candidateList conf l filter)

/-- `RegistrationOptions` (manager source). -/
structure RegistrationOptions where
  idleTimeout : Int
  configData : List ConfigData
  pluginFilter : String → Bool

/-- The three option constructors (`WithIdleTimeout`, `WithConfigData`,
`WithPluginFilter`). -/
inductive RegistrationOptionFn where
  | withIdleTimeout (d : Int)
  | withConfigData (l : List ConfigData)
  | withPluginFilter (f : String → Bool)

/-- Application of one option to the accumulated options record. -/
def applyOption (o : RegistrationOptions) : RegistrationOptionFn → RegistrationOptions
  | .withIdleTimeout d => { o with idleTimeout := d }
  | .withConfigData l => { o with configData := l }
  | .withPluginFilter f => { o with pluginFilter := f }

/-- `time.Hour` in nanoseconds. -/
def timeHour : Int := 3600 * 1000000000

/-- The `defaultOpts` literal in `RegisterPlugins`: one-hour idle timeout,
accept-all filter, no config data. -/
def defaultOptions : RegistrationOptions :=
  { idleTimeout := timeHour, configData := [], pluginFilter := fun _ => true }

/-- The shared `types.Config` built in `RegisterPlugins` before the loop: the
address of the (always present) option record's idle timeout, the option
record's config data, and the probed connection type; the ID is filled in per
plugin inside the loop. -/
def mkConf (opts : List RegistrationOptionFn) (t : ConnectionType) : Config :=
  { id := ""
    type := t
    idleTimeout := some (opts.foldl applyOption defaultOptions).idleTimeout
    configTypes := (opts.foldl applyOption defaultOptions).configData }

/-- Per-candidate outcomes during the registration loop: whether the
`capabilities` invocation succeeds, and whether `addPlugin` (capability
parse + spawn + handshake + registry publication) succeeds, keyed by plugin
ID. -/
structure ManagerEnv where
  probe : ProbeEnv
  walk : WalkResult
  capOk : String → Bool
  addOk : String → Bool

/-- The per-candidate loop of `RegisterPlugins`: assign the per-plugin config
(shared config with the candidate's ID), run `capabilities` (failure: logged,
skipped), then `addPlugin` (failure: logged, skipped).  Each candidate that
reached `addPlugin` is recorded with its assigned config and the outcome; the
loop itself never fails. -/
def registerLoop (env : ManagerEnv) (conf : Config) :
    List Plugin → List (Plugin × Config × Bool)
  | [] => []
  | p :: rest =>
    let c := { conf with id := p.id }
    if env.capOk p.id then (p, c, env.addOk p.id) :: registerLoop env conf rest
    else registerLoop env conf rest

/-- `PluginManager.RegisterPlugins` (manager source): build options and shared
config, probe the connection type (error aborts), discover candidates (missing
directory aborts with the wrapped `ErrNoPluginsFound`), fail with
`ErrNoPluginsFound` when no candidate survives, else run the absorbing
per-candidate loop and succeed. -/
def RegisterPlugins (env : ManagerEnv) (opts : List RegistrationOptionFn) :
    Except MgrErr (List (Plugin × Config × Bool)) :=
  match determineConnectionType env.probe with
  | .error _ => .error .connTypeFailed
  | .ok t =>
    match fetchPlugins (mkConf opts t) env.walk
        (opts.foldl applyOption defaultOptions).pluginFilter with
    | .error e => .error e
    | .ok plugins =>
      if plugins.isEmpty then .error (.noPluginsFound false)
      else .ok (registerLoop env (mkConf opts t) plugins)

/-! ## JSON serialization of `types.Config` (encoding/json semantics) -/

/-- A JSON document tree, the target of `json.Marshal`. -/
inductive Json where
  | null
  | num (n : Int)
  | str (s : String)
  | arr (elems : List Json)
  | obj (fields : List (String × Json))

/-- The standard base64 alphabet used by `encoding/base64.StdEncoding`. -/
def b64Alphabet : List Char :=
  "ABCDEFGHIJKLMNOPQRSTUVWXYZabcdefghijklmnopqrstuvwxyz0123456789+/".data

/-- The alphabet character for a 6-bit value. -/
def b64Char (n : Nat) : Char := b64Alphabet.getD n 'A'

/-- The 6-bit value of an alphabet character (`none` for a non-alphabet
character). -/
def b64Index (c : Char) : Option Nat := b64Alphabet.indexOf? c

/-- Standard base64 encoding with padding, three input bytes per four output
characters, as produced by `json.Marshal` for a `[]byte` field. -/
def b64encode : List Nat → List Char
  | [] => []
  | [a] => [b64Char (a / 4), b64Char (a % 4 * 16), '=', '=']
  | [a, b] => [b64Char (a / 4), b64Char (a % 4 * 16 + b / 16), b64Char (b % 16 * 4), '=']
  | a :: b :: c :: rest =>
    b64Char (a / 4) :: b64Char (a % 4 * 16 + b / 16) :: b64Char (b % 16 * 4 + c / 64) ::
      b64Char (c % 64) :: b64encode rest

/-- Standard base64 decoding with padding, four characters per block, padding
permitted only in the final block. -/
def b64decode : List Char → Option (List Nat)
  | [] => some []
  | c1 :: c2 :: c3 :: c4 :: rest =>
    if rest = [] ∧ c3 = '=' ∧ c4 = '=' then
      match b64Index c1, b64Index c2 with
      | some x1, some x2 => some [x1 * 4 + x2 / 16]
      | _, _ => none
    else if rest = [] ∧ c4 = '=' then
      match b64Index c1, b64Index c2, b64Index c3 with
      | some x1, some x2, some x3 => some [x1 * 4 + x2 / 16, x2 % 16 * 16 + x3 / 4]
      | _, _, _ => none
    else
      match b64Index c1, b64Index c2, b64Index c3, b64Index c4, b64decode rest with
      | some x1, some x2, some x3, some x4, some tl =>
        some ((x1 * 4 + x2 / 16) :: (x2 % 16 * 16 + x3 / 4) :: (x3 % 4 * 64 + x4) :: tl)
      | _, _, _, _, _ => none
  | _ => none

/-- `json.Marshal` of a `types.ConfigData` value: both fields are emitted (no
`omitempty`); the byte slice becomes a base64 string. -/
def marshalConfigData (cd : ConfigData) : Json :=
  .obj [("type", .str cd.type), ("data", .str (String.mk (b64encode cd.data)))]

/-- `json.Marshal` of a `types.Config` value: `id` and `type` always emitted;
`idleTimeout` (a `*time.Duration`, nanosecond count) and `configTypes` carry
`omitempty` and are dropped when nil/empty. -/
def marshalConfig (c : Config) : Json :=
  .obj ([("id", .str c.id), ("type", .str c.type)]
    ++ (match c.idleTimeout with
        | some d => [("idleTimeout", .num d)]
        | none => [])
    ++ (if c.configTypes = [] then []
        else [("configTypes", .arr (c.configTypes.map marshalConfigData))]))

/-- Field lookup during `json.Unmarshal` of an object. -/
def jsonField (fields : List (String × Json)) (k : String) : Option Json :=
  fields.lookup k

/-- `json.Unmarshal` into a `types.ConfigData`: a missing or null field leaves
the zero value; a string field must be valid base64 for the byte slice. -/
def unmarshalConfigData : Json → Option ConfigData
  | .obj fields =>
    let t? : Option String :=
      match jsonField fields "type" with
      | none => some ""
      | some .null => some ""
      | some (.str s) => some s
      | some _ => none
    let d? : Option (List Nat) :=
      match jsonField fields "data" with
      | none => some []
      | some .null => some []
      | some (.str s) => b64decode s.data
      | some _ => none
    match t?, d? with
    | some t, some d => some { type := t, data := d }
    | _, _ => none
  | _ => none

/-- Element-wise decoding of a `configTypes` array. -/
def unmarshalConfigDataList : List Json → Option (List ConfigData)
  | [] => some []
  | j :: rest =>
    match unmarshalConfigData j, unmarshalConfigDataList rest with
    | some cd, some r => some (cd :: r)
    | _, _ => none

/-- `json.Unmarshal` into a `types.Config`: missing or null optional fields
leave the zero values (nil pointer, nil slice, empty strings). -/
def unmarshalConfig : Json → Option Config
  | .obj fields =>
    let id? : Option String :=
      match jsonField fields "id" with
      | none => some ""
      | some .null => some ""
      | some (.str s) => some s
      | some _ => none
    let ty? : Option String :=
      match jsonField fields "type" with
      | none => some ""
      | some .null => some ""
      | some (.str s) => some s
      | some _ => none
    let idle? : Option (Option Int) :=
      match jsonField fields "idleTimeout" with
      | none => some none
      | some .null => some none
      | some (.num n) => some (some n)
      | some _ => none
    let cts? : Option (List ConfigData) :=
      match jsonField fields "configTypes" with
      | none => some []
      | some .null => some []
      | some (.arr js) => unmarshalConfigDataList js
      | some _ => none
    match id?, ty?, idle?, cts? with
    | some i, some t, some idl, some cts =>
      some { id := i, type := t, idleTimeout := idl, configTypes := cts }
    | _, _, _, _ => none
  | _ => none

/-- A `Config` whose opaque byte blobs are genuine bytes (each value below
256), the regime in which the Go `[]byte` fields live. -/
def ValidConfig (c : Config) : Prop :=
  ∀ cd ∈ c.configTypes, ∀ x ∈ cd.data, x < 256

instance : DecidablePred ValidConfig := fun c => by
  unfold ValidConfig; infer_instance

/-! ## Sample values used to instantiate theorems at concrete inputs -/

/-- A concrete configuration. -/
def sampleConfig : Config :=
  { id := "p1", type := "tcp", idleTimeout := none, configTypes := [] }

/-- A concrete descriptor declaring the single capability type `"t"`. -/
def samplePlugin : Plugin :=
  { id := "p1", path := "/plugins/p1", config := sampleConfig, types := [("t", [])] }

/-- A concrete wire handle. -/
def sampleWrapper : ExternalPluginWrapper :=
  { location := "127.0.0.1:5000", connectionType := "tcp", pluginId := "p1" }

/-- A concrete running external plugin entry. -/
def sampleExternal : ExternalPlugin :=
  { plugin := samplePlugin, client := sampleWrapper }

/-- A registry holding only an external provider for type `"t"`. -/
def sampleRegistry : Registry :=
  { internalPlugins := [], externalPlugins := [("t", sampleExternal)] }

/-- A registry holding both an internal and an external provider for `"t"`. -/
def sampleRegistryBoth : Registry :=
  { internalPlugins := [("t", ⟨1⟩)], externalPlugins := [("t", sampleExternal)] }

/-- A registry where one external descriptor appears under two capability
types. -/
def sampleRegistryMulti : Registry :=
  { internalPlugins := [],
    externalPlugins := [("t1", sampleExternal), ("t2", sampleExternal)] }

/-- A manager environment: every probe step succeeds, the walk finds one
extensionless regular file, and every per-candidate step succeeds. -/
def witnessEnv : ManagerEnv :=
  { probe := ⟨true, true, true⟩
    walk := .entries [⟨"/p/alpha", "alpha", false⟩]
    capOk := fun _ => true
    addOk := fun _ => true }

/-- The same manager environment with a missing plugin directory. -/
def witnessEnvMissing : ManagerEnv :=
  { probe := ⟨true, true, true⟩
    walk := .missing
    capOk := fun _ => true
    addOk := fun _ => true }

/-- A manager environment where the scratch temp directory cannot be created
(the connection-type probe fails) while the plugin directory is also
missing. -/
def witnessEnvProbeFail : ManagerEnv :=
  { probe := ⟨false, true, true⟩
    walk := .missing
    capOk := fun _ => true
    addOk := fun _ => true }

/-- A manager environment where the directory walk fails with a generic
(non-`IsNotExist`) filesystem error. -/
def witnessEnvWalkErr : ManagerEnv :=
  { probe := ⟨true, true, true⟩
    walk := .errored
    capOk := fun _ => true
    addOk := fun _ => true }

/-- The shared config `RegisterPlugins` builds in `witnessEnv` with no
options. -/
def witnessConf : Config :=
  { id := "", type := "unix", idleTimeout := some timeHour, configTypes := [] }

/-- The discovered candidate in `witnessEnv`. -/
def witnessPlugin : Plugin :=
  { id := "alpha", path := "/p/alpha", config := witnessConf, types := [] }

/-- The per-plugin config assigned to the candidate in `witnessEnv`. -/
def witnessConfig : Config :=
  { id := "alpha", type := "unix", idleTimeout := some timeHour, configTypes := [] }

/-! # Theorems -/

/-! ## Helper lemmas -/

/-- The head surviving a `dropWhile` fails the dropped predicate. -/
theorem head_dropWhile_not {α : Type} (q : α → Bool) (l : List α) :
    ∀ c, (l.dropWhile q).head? = some c → q c = false := by
  induction l with
  | nil => simp
  | cons a as ih =>
    intro c h
    by_cases hq : q a
    · rw [List.dropWhile_cons_of_pos hq] at h
      exact ih c h
    · rw [List.dropWhile_cons_of_neg hq] at h
      simp only [List.head?_cons, Option.some.injEq] at h
      subst h
      simpa using hq

/-- The conflict scan reports a conflict exactly when some declared type is
claimed by either map. -/
theorem findConflict_isSome_iff (r : Registry) :
    ∀ ts : List String,
      (findConflict r ts).isSome = true ↔ ∃ t ∈ ts, isClaimed r t = true := by
  intro ts
  induction ts with
  | nil => simp [findConflict]
  | cons t ts ih =>
    by_cases h1 : (r.internalPlugins.lookup t).isSome
    · constructor
      · intro _
        exact ⟨t, List.mem_cons_self t ts, by simp [isClaimed, h1]⟩
      · intro _
        simp [findConflict, h1]
    · by_cases h2 : (r.externalPlugins.lookup t).isSome
      · constructor
        · intro _
          exact ⟨t, List.mem_cons_self t ts, by simp [isClaimed, h2]⟩
        · intro _
          simp [findConflict, h1, h2]
      · have hstep : findConflict r (t :: ts) = findConflict r ts := by
          simp [findConflict, h1, h2]
        rw [hstep, ih]
        constructor
        · rintro ⟨u, hu, hc⟩
          exact ⟨u, List.mem_cons_of_mem _ hu, hc⟩
        · rintro ⟨u, hu, hc⟩
          rcases List.mem_cons.mp hu with rfl | hu
          · exfalso
            simp only [isClaimed, Bool.or_eq_true] at hc
            rcases hc with hc | hc
            · exact h1 hc
            · exact h2 hc
          · exact ⟨u, hu, hc⟩

/-- One publication step. -/
theorem publishAll_cons (k : String) (ks : List String) (ep : ExternalPlugin)
    (m : List (String × ExternalPlugin)) :
    publishAll (k :: ks) ep m = publishAll ks ep ((k, ep) :: m) := rfl

/-- Publication leaves undeclared types untouched. -/
theorem publishAll_lookup_not_mem :
    ∀ (keys : List String) (ep : ExternalPlugin) (m : List (String × ExternalPlugin))
      (t : String), t ∉ keys → (publishAll keys ep m).lookup t = m.lookup t := by
  intro keys
  induction keys with
  | nil => intro ep m t _; rfl
  | cons k ks ih =>
    intro ep m t ht
    rw [publishAll_cons, ih ep _ t (fun h => ht (List.mem_cons_of_mem _ h))]
    have hne : t ≠ k := fun h => ht (h ▸ List.mem_cons_self k ks)
    have hbeq : (t == k) = false := beq_eq_false_iff_ne.mpr hne
    simp [List.lookup, hbeq]

/-- Publication maps every declared type to the published entry. -/
theorem publishAll_lookup_mem :
    ∀ (keys : List String) (ep : ExternalPlugin) (m : List (String × ExternalPlugin))
      (t : String), t ∈ keys → (publishAll keys ep m).lookup t = some ep := by
  intro keys
  induction keys with
  | nil => intro ep m t ht; cases ht
  | cons k ks ih =>
    intro ep m t ht
    by_cases hks : t ∈ ks
    · rw [publishAll_cons]
      exact ih ep _ t hks
    · have : t = k := by
        rcases List.mem_cons.mp ht with h | h
        · exact h
        · exact absurd h hks
      subst this
      rw [publishAll_cons, publishAll_lookup_not_mem ks ep _ t hks]
      simp [List.lookup]

/-- The shutdown loop: the signalled IDs are duplicate-free, are exactly the
descriptor IDs present in the remaining entries and not yet processed, and the
accumulated failures are exactly the signalled IDs whose delivery failed, in
order. -/
theorem shutdownLoop_spec (sigOk : String → Bool) :
    ∀ (l : List (String × ExternalPlugin)) (processed : List String),
      (shutdownLoop sigOk l processed).1.Nodup
    ∧ (∀ id, id ∈ (shutdownLoop sigOk l processed).1 ↔
        (id ∉ processed ∧ id ∈ l.map (fun kv => kv.2.plugin.id)))
    ∧ (shutdownLoop sigOk l processed).2 =
        (shutdownLoop sigOk l processed).1.filter (fun i => !(sigOk i)) := by
  intro l
  induction l with
  | nil => intro processed; simp [shutdownLoop]
  | cons kv rest ih =>
    intro processed
    obtain ⟨k, ep⟩ := kv
    by_cases hp : ep.plugin.id ∈ processed
    · have h0 := ih processed
      simp only [shutdownLoop, hp, if_pos]
      refine ⟨h0.1, fun id => ?_, h0.2.2⟩
      rw [h0.2.1 id]
      simp only [List.map_cons, List.mem_cons]
      constructor
      · rintro ⟨hnp, hm⟩
        exact ⟨hnp, Or.inr hm⟩
      · rintro ⟨hnp, hm | hm⟩
        · exact absurd (hm ▸ hp) hnp
        · exact ⟨hnp, hm⟩
    · have h0 := ih (ep.plugin.id :: processed)
      simp only [shutdownLoop, hp, if_neg, if_false]
      refine ⟨?_, fun id => ?_, ?_⟩
      · refine List.nodup_cons.mpr ⟨fun hmem => ?_, h0.1⟩
        have := (h0.2.1 ep.plugin.id).mp hmem
        exact this.1 (List.mem_cons_self _ _)
      · simp only [List.mem_cons, List.map_cons]
        rw [h0.2.1 id]
        constructor
        · rintro (rfl | ⟨hnp, hm⟩)
          · exact ⟨hp, Or.inl rfl⟩
          · exact ⟨fun h => hnp (List.mem_cons_of_mem _ h), Or.inr hm⟩
        · rintro ⟨hnp, hm | hm⟩
          · exact Or.inl hm
          · by_cases hid : id = ep.plugin.id
            · exact Or.inl hid
            · exact Or.inr ⟨by simp [List.mem_cons, hid, hnp], hm⟩
      · rw [List.filter_cons, h0.2.2]
        by_cases hs : sigOk ep.plugin.id <;> simp [hs]

/-! ## C1: RegisterInternal and the external map -/

/-- C1 counterexample: a type held by an external plugin is NOT rejected by
`RegisterInternal` — the registry holds an external provider for `"t"`, yet
registering an internal provider for `"t"` succeeds, contrary to the claim
that it fails whenever the type has a provider of either kind. -/
theorem registerInternal_overrides_external_cx :
    (sampleRegistry.externalPlugins.lookup "t").isSome = true
  ∧ RegisterInternal sampleRegistry "t" ⟨7⟩ =
      ({ internalPlugins := [("t", ⟨7⟩)], externalPlugins := [("t", sampleExternal)] }, none) := by
  constructor
  · decide
  · rfl

/-- C1 (amended): `RegisterInternal` fails exactly when the type already has an
INTERNAL provider (preserving that first provider); a type held only by an
external plugin is not rejected — the internal implementation is bound
anyway. -/
theorem registerInternal_conflict_is_internal_only :
    ∀ (r : Registry) (t : String) (p : PluginBase),
      (r.internalPlugins.lookup t = none →
        RegisterInternal r t p =
          ({ r with internalPlugins := (t, p) :: r.internalPlugins }, none))
    ∧ (∀ q, r.internalPlugins.lookup t = some q →
        RegisterInternal r t p = (r, some (.internalAlreadyRegistered t))
        ∧ (RegisterInternal r t p).1.internalPlugins.lookup t = some q) := by
  intro r t p
  constructor
  · intro h
    simp [RegisterInternal, h]
  · intro q h
    simp [RegisterInternal, h]

/-- C1 witness: the amended theorem applied at a concrete registry whose `"t"`
is held externally; the registration goes through. -/
theorem registerInternal_conflict_witness :
    RegisterInternal sampleRegistry "t" ⟨7⟩ =
      ({ sampleRegistry with internalPlugins := [("t", ⟨7⟩)] }, none) :=
  (registerInternal_conflict_is_internal_only sampleRegistry "t" ⟨7⟩).1 (by decide)

/-! ## C3: GetPlugin precedence -/

/-- C3: `GetPlugin` returns the internal provider when one exists, the external
wrapper when only an external one exists, a not-found error naming the type
when neither map has an entry, and the internal provider whenever both
exist. -/
theorem getPlugin_precedence :
    ∀ (r : Registry) (t : String),
      (∀ p, r.internalPlugins.lookup t = some p → GetPlugin r t = .ok (.internal p))
    ∧ (r.internalPlugins.lookup t = none →
        ∀ ep, r.externalPlugins.lookup t = some ep → GetPlugin r t = .ok (.external ep.client))
    ∧ (r.internalPlugins.lookup t = none → r.externalPlugins.lookup t = none →
        GetPlugin r t = .error (.notFound t))
    ∧ (∀ p ep, r.internalPlugins.lookup t = some p →
        r.externalPlugins.lookup t = some ep → GetPlugin r t = .ok (.internal p)) := by
  intro r t
  refine ⟨fun p h => ?_, fun h ep h2 => ?_, fun h h2 => ?_, fun p ep h _ => ?_⟩ <;>
    simp [GetPlugin, h, *]

/-- C3 witness: with both providers present for `"t"`, the internal one is
returned. -/
theorem getPlugin_precedence_witness :
    GetPlugin sampleRegistryBoth "t" = .ok (.internal ⟨1⟩) :=
  (getPlugin_precedence sampleRegistryBoth "t").2.2.2 ⟨1⟩ sampleExternal rfl rfl

/-! ## C6: cleanPath sanitization -/

/-- C6 counterexample: `';'` is in the disallowed set, yet an interior
semicolon survives `cleanPath` — the sanitizer does not remove interior
occurrences, contrary to the claim. -/
theorem cleanPath_interior_survives_cx :
    inCutset ';' = true ∧ cleanPath ("a;b".data) = "a;b".data := by
  decide

/-- C6 (amended): `cleanPath` strips disallowed characters only from the two
ends of the path: the result has no leading and no trailing cut-set character
and is a contiguous substring of the input; interior occurrences remain. -/
theorem cleanPath_trims_ends_only :
    ∀ p : List Char,
      (∀ c, (cleanPath p).head? = some c → inCutset c = false)
    ∧ (∀ c, (cleanPath p).getLast? = some c → inCutset c = false)
    ∧ List.IsInfix (cleanPath p) p := by
  intro p
  refine ⟨?_, ?_, ?_⟩
  · intro c h
    unfold cleanPath at h
    rw [List.head?_reverse] at h
    obtain ⟨s, hs⟩ := List.dropWhile_suffix (l := (p.dropWhile inCutset).reverse) inCutset
    have hne : (p.dropWhile inCutset).reverse.dropWhile inCutset ≠ [] := by
      intro he
      rw [he] at h
      simp at h
    have hlast : (p.dropWhile inCutset).reverse.getLast? = some c := by
      rw [← hs, List.getLast?_append_of_ne_nil _ hne]
      exact h
    rw [List.getLast?_reverse] at hlast
    exact head_dropWhile_not inCutset p c hlast
  · intro c h
    unfold cleanPath at h
    rw [List.getLast?_reverse] at h
    exact head_dropWhile_not inCutset _ c h
  · unfold cleanPath
    have h1 : List.IsSuffix (p.dropWhile inCutset) p := List.dropWhile_suffix inCutset
    have h2 : List.IsSuffix ((p.dropWhile inCutset).reverse.dropWhile inCutset)
        (p.dropWhile inCutset).reverse := List.dropWhile_suffix inCutset
    have h3 : List.IsPrefix ((p.dropWhile inCutset).reverse.dropWhile inCutset).reverse
        (p.dropWhile inCutset) := by
      rw [← List.reverse_suffix]
      simpa using h2
    exact h3.isInfix.trans h1.isInfix

/-- C6 witness: the amended theorem applied at `";x;"`: the surviving head is
not a cut-set character and the result is a substring of the input. -/
theorem cleanPath_trims_witness :
    inCutset 'x' = false ∧ List.IsInfix (cleanPath (";x;".data)) (";x;".data) :=
  ⟨(cleanPath_trims_ends_only (";x;".data)).1 'x' (by decide),
    (cleanPath_trims_ends_only (";x;".data)).2.2⟩

/-! ## C2: AddExternalPlugin atomicity -/

/-- C2: `AddExternalPlugin` is atomic on failure: a conflict on any declared
type fails before the process is started with the state unchanged; every
failure (conflict, start, handshake) leaves both maps unchanged; and on
success the handshake necessarily succeeded and the entry is published under
every declared type, with the internal map untouched. -/
theorem addExternal_atomic :
    ∀ (env : SpawnEnv) (r : Registry) (p : Plugin),
      ((∃ t ∈ typeKeys p, isClaimed r t = true) →
        (AddExternalPlugin env r p).2.1.isSome = true
        ∧ (AddExternalPlugin env r p).2.2 = false
        ∧ (AddExternalPlugin env r p).1 = r)
    ∧ ((AddExternalPlugin env r p).2.1.isSome = true → (AddExternalPlugin env r p).1 = r)
    ∧ ((AddExternalPlugin env r p).2.1 = none →
        env.startOk = true
        ∧ (∃ loc, env.handshake = some loc
            ∧ ∀ t ∈ typeKeys p,
                (AddExternalPlugin env r p).1.externalPlugins.lookup t =
                  some { plugin := p,
                         client := { location := loc, connectionType := p.config.type,
                                     pluginId := p.id } })
        ∧ (AddExternalPlugin env r p).1.internalPlugins = r.internalPlugins) := by
  intro env r p
  rcases hc : findConflict r (typeKeys p) with _ | e
  · rcases hs : env.startOk with _ | _
    · refine ⟨fun hex => ?_, fun _ => ?_, fun hnone => ?_⟩
      · exact absurd ((findConflict_isSome_iff r (typeKeys p)).mpr hex) (by simp [hc])
      · simp [AddExternalPlugin, hc, hs]
      · exfalso
        simp [AddExternalPlugin, hc, hs] at hnone
    · rcases hh : env.handshake with _ | loc
      · refine ⟨fun hex => ?_, fun _ => ?_, fun hnone => ?_⟩
        · exact absurd ((findConflict_isSome_iff r (typeKeys p)).mpr hex) (by simp [hc])
        · simp [AddExternalPlugin, hc, hs, hh]
        · exfalso
          simp [AddExternalPlugin, hc, hs, hh] at hnone
      · refine ⟨fun hex => ?_, fun habs => ?_, fun _ => ?_⟩
        · exact absurd ((findConflict_isSome_iff r (typeKeys p)).mpr hex) (by simp [hc])
        · exfalso
          simp [AddExternalPlugin, hc, hs, hh] at habs
        · refine ⟨rfl, ⟨loc, rfl, fun t ht => ?_⟩, ?_⟩
          · simp only [AddExternalPlugin, hc, hs, hh]
            exact publishAll_lookup_mem (typeKeys p) _ r.externalPlugins t ht
          · simp [AddExternalPlugin, hc, hs, hh]
  · refine ⟨fun _ => ?_, fun _ => ?_, fun hnone => ?_⟩
    · exact ⟨by simp [AddExternalPlugin, hc], by simp [AddExternalPlugin, hc]⟩
    · simp [AddExternalPlugin, hc]
    · exfalso
      simp [AddExternalPlugin, hc] at hnone

/-- C2 witness: a conflicting registration at a concrete registry fails
without starting the process and leaves the state unchanged, and a clean
registration at the empty registry publishes under the declared type. -/
theorem addExternal_atomic_witness :
    ((AddExternalPlugin ⟨true, some "l"⟩ sampleRegistry samplePlugin).2.2 = false
      ∧ (AddExternalPlugin ⟨true, some "l"⟩ sampleRegistry samplePlugin).1 = sampleRegistry)
    ∧ (AddExternalPlugin ⟨true, some "l"⟩ ⟨[], []⟩ samplePlugin).1.externalPlugins.lookup "t" =
        some { plugin := samplePlugin,
               client := { location := "l", connectionType := samplePlugin.config.type,
                           pluginId := samplePlugin.id } } :=
  ⟨((addExternal_atomic ⟨true, some "l"⟩ sampleRegistry samplePlugin).1
      ⟨"t", by decide, by decide⟩).2,
    ((addExternal_atomic ⟨true, some "l"⟩ ⟨[], []⟩ samplePlugin).2.2 rfl).2.1.elim
      (fun loc hloc => by
        have h1 : some loc = some "l" := hloc.1.symm
        have h2 := hloc.2 "t" (by decide)
        rw [Option.some.injEq] at h1
        rw [h1] at h2
        exact h2)⟩

/-! ## C4: Shutdown deduplication and error accumulation -/

/-- C4: `Shutdown` signals exactly once per distinct external descriptor ID
(the signalled list is duplicate-free and covers exactly the IDs appearing in
the external map), accumulates exactly the failed deliveries as the joined
error while still attempting every plugin, and returns no error when there are
no external plugins or when every delivery succeeds. -/
theorem shutdown_signals_once :
    ∀ (sigOk : String → Bool) (r : Registry),
      (Shutdown sigOk r).2.1.Nodup
    ∧ (∀ id, id ∈ (Shutdown sigOk r).2.1 ↔
        id ∈ r.externalPlugins.map (fun kv => kv.2.plugin.id))
    ∧ ((Shutdown sigOk r).2.2 = none ↔ ∀ id ∈ (Shutdown sigOk r).2.1, sigOk id = true)
    ∧ (∀ es, (Shutdown sigOk r).2.2 = some es →
        es = (Shutdown sigOk r).2.1.filter (fun i => !(sigOk i)) ∧ es ≠ [])
    ∧ (r.externalPlugins = [] → (Shutdown sigOk r).2.2 = none) := by
  intro sigOk r
  have hspec := shutdownLoop_spec sigOk r.externalPlugins []
  refine ⟨hspec.1, fun id => ?_, ?_, fun es hes => ?_, fun hnil => ?_⟩
  · rw [show (Shutdown sigOk r).2.1 = (shutdownLoop sigOk r.externalPlugins []).1 from rfl,
      hspec.2.1 id]
    simp
  · show (if (shutdownLoop sigOk r.externalPlugins []).2.isEmpty then none
        else some (shutdownLoop sigOk r.externalPlugins []).2) = none ↔ _
    rw [hspec.2.2]
    constructor
    · intro h id hid
      by_contra hbad
      have hmem : id ∈ (shutdownLoop sigOk r.externalPlugins []).1.filter
          (fun i => !(sigOk i)) :=
        List.mem_filter.mpr ⟨hid, by simp [hbad]⟩
      rcases hf : (shutdownLoop sigOk r.externalPlugins []).1.filter (fun i => !(sigOk i)) with
        _ | ⟨a, l⟩
      · rw [hf] at hmem; cases hmem
      · rw [hf] at h; simp at h
    · intro h
      have : (shutdownLoop sigOk r.externalPlugins []).1.filter (fun i => !(sigOk i)) = [] := by
        rw [List.filter_eq_nil_iff]
        intro a ha
        simp [h a ha]
      rw [this]
      rfl
  · have hes2 : (if (shutdownLoop sigOk r.externalPlugins []).2.isEmpty then none
        else some (shutdownLoop sigOk r.externalPlugins []).2) = some es := hes
    rcases hemp : (shutdownLoop sigOk r.externalPlugins []).2.isEmpty with _ | _
    · rw [hemp] at hes2
      simp only [if_false, Bool.false_eq_true, if_neg, Option.some.injEq] at hes2
      subst hes2
      refine ⟨hspec.2.2, ?_⟩
      intro hbad
      rw [hbad] at hemp
      simp at hemp
    · rw [hemp] at hes2
      simp at hes2
  · show (if (shutdownLoop sigOk r.externalPlugins []).2.isEmpty then none
        else some (shutdownLoop sigOk r.externalPlugins []).2) = none
    rw [hnil]
    rfl

/-- C4 witness: a plugin registered under two types is signalled exactly once
(the signalled list is duplicate-free) and an all-successful delivery yields no
error. -/
theorem shutdown_signals_once_witness :
    (Shutdown (fun _ => true) sampleRegistryMulti).2.1.Nodup
  ∧ (Shutdown (fun _ => true) sampleRegistryMulti).2.2 = none :=
  ⟨(shutdown_signals_once (fun _ => true) sampleRegistryMulti).1,
    ((shutdown_signals_once (fun _ => true) sampleRegistryMulti).2.2.1).mpr
      (fun _ _ => rfl)⟩

/-! ## C5: Shutdown does not remove aliases -/

/-- C5 counterexample: after `Shutdown` completes on a registry holding an
external plugin under its declared type `"t"`, that type is STILL mapped to
the plugin's entry — the claim that no declared type remains mapped is
false. -/
theorem shutdown_keeps_aliases_cx :
    typeKeys samplePlugin = ["t"]
  ∧ ((Shutdown (fun _ => true) sampleRegistry).1).externalPlugins.lookup "t" =
      some sampleExternal :=
  ⟨rfl, rfl⟩

/-- C5 (amended): `Shutdown` signals the plugins but never removes their
capability-type aliases: the registry maps are unchanged, and every type
mapped to an external entry before the call is still mapped to it after. -/
theorem shutdown_leaves_maps_unchanged :
    ∀ (sigOk : String → Bool) (r : Registry),
      (Shutdown sigOk r).1 = r
    ∧ (∀ t ep, r.externalPlugins.lookup t = some ep →
        ((Shutdown sigOk r).1).externalPlugins.lookup t = some ep) := by
  intro sigOk r
  exact ⟨rfl, fun t ep h => h⟩

/-- C5 witness: the amended theorem applied at a concrete registry, showing
the alias for `"t"` survives shutdown. -/
theorem shutdown_leaves_maps_witness :
    ((Shutdown (fun _ => false) sampleRegistry).1).externalPlugins.lookup "t" =
      some sampleExternal :=
  (shutdown_leaves_maps_unchanged (fun _ => false) sampleRegistry).2 "t" sampleExternal rfl

/-! ## Manager helper lemmas -/

/-- Folding options that never set the idle timeout leaves the accumulated idle
timeout unchanged. -/
theorem foldl_applyOption_idle :
    ∀ (opts : List RegistrationOptionFn) (o : RegistrationOptions),
      (∀ d, RegistrationOptionFn.withIdleTimeout d ∉ opts) →
      (opts.foldl applyOption o).idleTimeout = o.idleTimeout := by
  intro opts
  induction opts with
  | nil => intro o _; rfl
  | cons a opts ih =>
    intro o h
    have hstep : (applyOption o a).idleTimeout = o.idleTimeout := by
      cases a with
      | withIdleTimeout d => exact absurd (List.mem_cons_self _ _) (h d)
      | withConfigData l => rfl
      | withPluginFilter f => rfl
    show ((a :: opts).foldl applyOption o).idleTimeout = o.idleTimeout
    rw [List.foldl_cons, ih (applyOption o a) (fun d hd => h d (List.mem_cons_of_mem _ hd)),
      hstep]

/-- Every record produced by the registration loop carries the shared config's
connection type and idle timeout (only the ID differs per plugin). -/
theorem registerLoop_mem_config :
    ∀ (env : ManagerEnv) (conf : Config) (ps : List Plugin)
      (rec : Plugin × Config × Bool), rec ∈ registerLoop env conf ps →
      rec.2.1.type = conf.type ∧ rec.2.1.idleTimeout = conf.idleTimeout := by
  intro env conf ps
  induction ps with
  | nil => intro rec h; cases h
  | cons p rest ih =>
    intro rec h
    by_cases hc : env.capOk p.id
    · rw [show registerLoop env conf (p :: rest) =
          (p, { conf with id := p.id }, env.addOk p.id) :: registerLoop env conf rest by
            simp [registerLoop, hc]] at h
      rcases List.mem_cons.mp h with rfl | h2
      · exact ⟨rfl, rfl⟩
      · exact ih rec h2
    · rw [show registerLoop env conf (p :: rest) = registerLoop env conf rest by
          simp [registerLoop, hc]] at h
      exact ih rec h

/-- Inversion of a successful `RegisterPlugins` call: the probe succeeded, the
walk yielded entries, and the result is the loop over the discovered
candidates with the shared config. -/
theorem registerPlugins_ok_inv :
    ∀ (env : ManagerEnv) (opts : List RegistrationOptionFn)
      (recs : List (Plugin × Config × Bool)),
      RegisterPlugins env opts = .ok recs →
      ∃ t l, determineConnectionType env.probe = .ok t ∧ env.walk = .entries l ∧
        recs = registerLoop env (mkConf opts t)
          (candidateList (mkConf opts t) l
            (opts.foldl applyOption defaultOptions).pluginFilter) := by
  intro env opts recs hok
  unfold RegisterPlugins at hok
  rcases hdet : determineConnectionType env.probe with e | t <;> rw [hdet] at hok
  · cases hok
  · rcases hw : env.walk with _ | _ | l <;> rw [hw] at hok <;>
      simp only [fetchPlugins] at hok
    · cases hok
    · cases hok
    · by_cases hemp : (candidateList (mkConf opts t) l
          (opts.foldl applyOption defaultOptions).pluginFilter).isEmpty
      · rw [if_pos hemp] at hok
        cases hok
      · rw [if_neg hemp] at hok
        injection hok with h
        exact ⟨t, l, rfl, rfl, h.symm⟩

/-! ## C7: RegisterPlugins failure modes -/

/-- C7 counterexample: when the connection-type probe fails (temp-directory
creation fails) while the target directory is also missing, `RegisterPlugins`
returns the probe error, which is NOT `ErrNoPluginsFound` — refuting the claim
that it returns `NoPluginsFound` exactly when the directory is missing or zero
candidates are discovered. -/
theorem registerPlugins_probe_failure_cx :
    witnessEnvProbeFail.walk = .missing
  ∧ RegisterPlugins witnessEnvProbeFail [] = .error .connTypeFailed
  ∧ isNoPluginsFound .connTypeFailed = false :=
  ⟨rfl, rfl, rfl⟩

/-- C7 (amended): `RegisterPlugins` absorbs every per-candidate failure — with
at least one discovered candidate it succeeds regardless of failed capability
queries or rejected registrations — but it has two non-candidate error paths
besides discovery: a connection-type probe failure and a generic
(non-`IsNotExist`) walk error, each returned as its own error.  It returns
`ErrNoPluginsFound` exactly when the probe succeeds and the directory is
missing or zero candidates (extensionless regular files passing the filter)
are discovered. -/
theorem registerPlugins_discovery_errors :
    ∀ (env : ManagerEnv) (opts : List RegistrationOptionFn),
      (∀ e, determineConnectionType env.probe = .error e →
        RegisterPlugins env opts = .error .connTypeFailed)
    ∧ (∀ t, determineConnectionType env.probe = .ok t →
        (env.walk = .missing → RegisterPlugins env opts = .error (.noPluginsFound true))
      ∧ (env.walk = .errored → RegisterPlugins env opts = .error .walkFailed)
      ∧ (∀ l, env.walk = .entries l →
          (candidateList (mkConf opts t) l
              (opts.foldl applyOption defaultOptions).pluginFilter = [] →
            RegisterPlugins env opts = .error (.noPluginsFound false))
        ∧ (candidateList (mkConf opts t) l
              (opts.foldl applyOption defaultOptions).pluginFilter ≠ [] →
            RegisterPlugins env opts =
              .ok (registerLoop env (mkConf opts t)
                (candidateList (mkConf opts t) l
                  (opts.foldl applyOption defaultOptions).pluginFilter)))))
    ∧ ((∃ e, RegisterPlugins env opts = .error e ∧ isNoPluginsFound e = true) ↔
        (∃ t, determineConnectionType env.probe = .ok t ∧
          (env.walk = .missing ∨ ∃ l, env.walk = .entries l ∧
            candidateList (mkConf opts t) l
              (opts.foldl applyOption defaultOptions).pluginFilter = []))) := by
  intro env opts
  refine ⟨fun e he => ?_,
    fun t ht => ⟨fun hw => ?_, fun hw => ?_, fun l hw => ⟨fun hemp => ?_, fun hne => ?_⟩⟩,
    ?_, ?_⟩
  · unfold RegisterPlugins
    rw [he]
  · unfold RegisterPlugins
    rw [ht, hw]
    rfl
  · unfold RegisterPlugins
    rw [ht, hw]
    rfl
  · unfold RegisterPlugins
    rw [ht, hw]
    simp [fetchPlugins, hemp]
  · unfold RegisterPlugins
    rw [ht, hw]
    simp only [fetchPlugins]
    rw [if_neg (by simpa [List.isEmpty_iff] using hne)]
  · rintro ⟨e, he, hnpf⟩
    rcases hdet : determineConnectionType env.probe with e2 | t
    · unfold RegisterPlugins at he
      rw [hdet] at he
      injection he with h
      subst h
      exact absurd hnpf (by decide)
    · refine ⟨t, rfl, ?_⟩
      rcases hw : env.walk with _ | _ | l
      · exact Or.inl rfl
      · unfold RegisterPlugins at he
        rw [hdet, hw] at he
        simp only [fetchPlugins] at he
        injection he with h
        subst h
        exact absurd hnpf (by decide)
      · refine Or.inr ⟨l, rfl, ?_⟩
        unfold RegisterPlugins at he
        rw [hdet, hw] at he
        simp only [fetchPlugins] at he
        by_cases hemp : (candidateList (mkConf opts t) l
            (opts.foldl applyOption defaultOptions).pluginFilter).isEmpty
        · exact List.isEmpty_iff.mp hemp
        · rw [if_neg hemp] at he
          cases he
  · rintro ⟨t, ht, hw | ⟨l, hw, hemp⟩⟩
    · refine ⟨.noPluginsFound true, ?_, rfl⟩
      unfold RegisterPlugins
      rw [ht, hw]
      rfl
    · refine ⟨.noPluginsFound false, ?_, rfl⟩
      unfold RegisterPlugins
      rw [ht, hw]
      simp [fetchPlugins, hemp]

/-- C7 witness: a missing directory yields `ErrNoPluginsFound`, a generic walk
error yields the non-`NoPluginsFound` discovery error, and a directory with
one candidate succeeds with nothing assumed about the candidate's own
steps. -/
theorem registerPlugins_discovery_errors_witness :
    RegisterPlugins witnessEnvMissing [] = .error (.noPluginsFound true)
  ∧ RegisterPlugins witnessEnvWalkErr [] = .error .walkFailed
  ∧ RegisterPlugins witnessEnv [] = .ok [(witnessPlugin, witnessConfig, true)] :=
  ⟨((registerPlugins_discovery_errors witnessEnvMissing []).2.1 Socket rfl).1 rfl,
    ((registerPlugins_discovery_errors witnessEnvWalkErr []).2.1 Socket rfl).2.1 rfl,
    by
      have h := (((registerPlugins_discovery_errors witnessEnv []).2.1 Socket rfl).2.2
        [⟨"/p/alpha", "alpha", false⟩] rfl).2 (by decide)
      exact h.trans (by rfl)⟩

/-! ## C8: connection-type auto-detection -/

/-- C8 counterexample: the throwaway listen succeeds but the immediate close
fails; `determineConnectionType` then returns an error instead of selecting
the Unix-socket type, contrary to the claim that a successful listen selects
Unix sockets. -/
theorem connection_type_close_failure_cx :
    (⟨true, true, false⟩ : ProbeEnv).listenOk = true
  ∧ determineConnectionType ⟨true, true, false⟩ = .error .closeFailed :=
  ⟨rfl, rfl⟩

/-- C8 (amended): the probe runs once per batch: Unix sockets are selected
when the listen AND its immediate close succeed, TCP when the listen fails;
failure to create the scratch directory or to close the listener aborts the
call with an error instead of selecting a type; and whatever type is detected
is assigned to every plugin's Config in the batch. -/
theorem connection_type_detection :
    ∀ pe : ProbeEnv,
      (pe.mkdirOk = true → pe.listenOk = true → pe.closeOk = true →
        determineConnectionType pe = .ok Socket)
    ∧ (pe.mkdirOk = true → pe.listenOk = false → determineConnectionType pe = .ok TCP)
    ∧ (pe.mkdirOk = false → determineConnectionType pe = .error .tempDirFailed)
    ∧ (pe.mkdirOk = true → pe.listenOk = true → pe.closeOk = false →
        determineConnectionType pe = .error .closeFailed)
    ∧ (∀ (env : ManagerEnv) (opts : List RegistrationOptionFn) (t : ConnectionType)
        (recs : List (Plugin × Config × Bool)),
        env.probe = pe → determineConnectionType pe = .ok t →
        RegisterPlugins env opts = .ok recs → ∀ rec ∈ recs, rec.2.1.type = t) := by
  intro pe
  refine ⟨fun h1 h2 h3 => ?_, fun h1 h2 => ?_, fun h1 => ?_, fun h1 h2 h3 => ?_,
    fun env opts t recs hpe hdet hok rec hrec => ?_⟩
  · simp [determineConnectionType, h1, h2, h3]
  · simp [determineConnectionType, h1, h2]
  · simp [determineConnectionType, h1]
  · simp [determineConnectionType, h1, h2, h3]
  · obtain ⟨t2, l, hdet2, hw, hrecs⟩ := registerPlugins_ok_inv env opts recs hok
    rw [hpe, hdet] at hdet2
    cases hdet2
    subst hrecs
    exact (registerLoop_mem_config env (mkConf opts t) _ rec hrec).1

/-- C8 witness: with every probe step succeeding Unix sockets are selected,
and in the concrete one-candidate batch the detected type is assigned to the
candidate's config. -/
theorem connection_type_detection_witness :
    determineConnectionType ⟨true, true, true⟩ = .ok Socket
  ∧ witnessConfig.type = Socket :=
  ⟨(connection_type_detection ⟨true, true, true⟩).1 rfl rfl rfl,
    (connection_type_detection ⟨true, true, true⟩).2.2.2.2 witnessEnv [] Socket
      [(witnessPlugin, witnessConfig, true)] rfl rfl rfl
      (witnessPlugin, witnessConfig, true) (List.mem_singleton.mpr rfl)⟩

/-! ## C10: default idle timeout -/

/-- C10: with no idle-timeout option supplied, every plugin in a successful
batch is handed a Config whose idle timeout is exactly one hour; and with any
options whatsoever the idle timeout handed to a spawned plugin is never
absent. -/
theorem registerPlugins_default_idle_timeout :
    ∀ (env : ManagerEnv) (opts : List RegistrationOptionFn)
      (recs : List (Plugin × Config × Bool)),
      ((∀ d, RegistrationOptionFn.withIdleTimeout d ∉ opts) →
        RegisterPlugins env opts = .ok recs →
        ∀ rec ∈ recs, rec.2.1.idleTimeout = some timeHour)
    ∧ (RegisterPlugins env opts = .ok recs →
        ∀ rec ∈ recs, (rec.2.1.idleTimeout).isSome = true) := by
  intro env opts recs
  constructor
  · intro hno hok rec hrec
    obtain ⟨t, l, hdet, hw, hrecs⟩ := registerPlugins_ok_inv env opts recs hok
    subst hrecs
    rw [(registerLoop_mem_config env (mkConf opts t) _ rec hrec).2]
    show some (opts.foldl applyOption defaultOptions).idleTimeout = some timeHour
    rw [foldl_applyOption_idle opts defaultOptions hno]
    rfl
  · intro hok rec hrec
    obtain ⟨t, l, hdet, hw, hrecs⟩ := registerPlugins_ok_inv env opts recs hok
    subst hrecs
    rw [(registerLoop_mem_config env (mkConf opts t) _ rec hrec).2]
    rfl

/-- C10 witness: in the concrete one-candidate batch with no options, the
spawned plugin's config carries a one-hour idle timeout. -/
theorem registerPlugins_default_idle_witness :
    witnessConfig.idleTimeout = some timeHour :=
  (registerPlugins_default_idle_timeout witnessEnv [] [(witnessPlugin, witnessConfig, true)]).1
    (fun _ h => nomatch h) rfl (witnessPlugin, witnessConfig, true) (List.mem_singleton.mpr rfl)

/-! ## C9 helper lemmas: base64 round-trip -/

/-- Alphabet lookup inverts the alphabet character map on 6-bit values. -/
theorem b64Index_b64Char : ∀ n, n < 64 → b64Index (b64Char n) = some n := by decide

/-- No 6-bit value maps to the padding character. -/
theorem b64Char_ne_pad : ∀ n, n < 64 → b64Char n ≠ '=' := by decide

/-- Encoding a nonempty byte list yields a nonempty character list. -/
theorem b64encode_ne_nil : ∀ l : List Nat, l ≠ [] → b64encode l ≠ [] := by
  intro l h
  rcases l with _ | ⟨a, _ | ⟨b, _ | ⟨c, rest⟩⟩⟩ <;> simp [b64encode] at h ⊢

/-- Fuelled base64 round-trip: decoding the encoding of a byte list returns the
list. -/
theorem b64_roundtrip_aux :
    ∀ (n : Nat) (l : List Nat), l.length ≤ n → (∀ x ∈ l, x < 256) →
      b64decode (b64encode l) = some l := by
  intro n
  induction n with
  | zero =>
    intro l hl _
    rw [Nat.le_zero, List.length_eq_zero] at hl
    subst hl
    rfl
  | succ n ih =>
    intro l hl hv
    rcases l with _ | ⟨a, _ | ⟨b, _ | ⟨c, rest⟩⟩⟩
    · rfl
    · have ha : a < 256 := hv a (by simp)
      have h1 := b64Index_b64Char (a / 4) (by omega)
      have h2 := b64Index_b64Char (a % 4 * 16) (by omega)
      simp [b64encode, b64decode, h1, h2]
      all_goals omega
    · have ha : a < 256 := hv a (by simp)
      have hb : b < 256 := hv b (by simp)
      have hne3 := b64Char_ne_pad (b % 16 * 4) (by omega)
      have h1 := b64Index_b64Char (a / 4) (by omega)
      have h2 := b64Index_b64Char (a % 4 * 16 + b / 16) (by omega)
      have h3 := b64Index_b64Char (b % 16 * 4) (by omega)
      simp [b64encode, b64decode, h1, h2, h3, hne3]
      all_goals omega
    · have ha : a < 256 := hv a (by simp)
      have hb : b < 256 := hv b (by simp)
      have hc : c < 256 := hv c (by simp)
      have hv' : ∀ x ∈ rest, x < 256 := fun x hx => hv x (by simp [hx])
      have hrest := ih rest (by simp at hl; omega) hv'
      have hne3 := b64Char_ne_pad (b % 16 * 4 + c / 64) (by omega)
      have hne4 := b64Char_ne_pad (c % 64) (by omega)
      have h1 := b64Index_b64Char (a / 4) (by omega)
      have h2 := b64Index_b64Char (a % 4 * 16 + b / 16) (by omega)
      have h3 := b64Index_b64Char (b % 16 * 4 + c / 64) (by omega)
      have h4 := b64Index_b64Char (c % 64) (by omega)
      simp [b64encode, b64decode, h1, h2, h3, h4, hne3, hne4, hrest]
      all_goals omega

/-- Base64 round-trip on genuine bytes. -/
theorem b64_roundtrip (l : List Nat) (h : ∀ x ∈ l, x < 256) :
    b64decode (b64encode l) = some l :=
  b64_roundtrip_aux l.length l le_rfl h

/-- Round-trip of one `ConfigData` entry through its JSON form. -/
theorem unmarshal_marshal_configData (cd : ConfigData) (h : ∀ x ∈ cd.data, x < 256) :
    unmarshalConfigData (marshalConfigData cd) = some cd := by
  have hb := b64_roundtrip cd.data h
  have hsd : (String.mk (b64encode cd.data)).data = b64encode cd.data := rfl
  simp [marshalConfigData, unmarshalConfigData, jsonField, List.lookup, hsd, hb]

/-- Round-trip of a `configTypes` array through its JSON form. -/
theorem unmarshal_marshal_configDataList :
    ∀ l : List ConfigData, (∀ cd ∈ l, ∀ x ∈ cd.data, x < 256) →
      unmarshalConfigDataList (l.map marshalConfigData) = some l := by
  intro l
  induction l with
  | nil => intro _; rfl
  | cons cd rest ih =>
    intro h
    have h1 := unmarshal_marshal_configData cd (h cd (List.mem_cons_self _ _))
    have h2 := ih (fun x hx => h x (List.mem_cons_of_mem _ hx))
    simp [unmarshalConfigDataList, h1, h2]

/-! ## C9: Config JSON round-trip -/

/-- C9: serializing any valid `Config` (with or without the optional idle
timeout, with any list of opaque config entries) to its JSON document and
parsing it back yields the original value field for field, absent optional
fields staying absent. -/
theorem config_json_roundtrip :
    ∀ c : Config, ValidConfig c → unmarshalConfig (marshalConfig c) = some c := by
  intro c hv
  obtain ⟨i, ty, idle, cts⟩ := c
  have hl := unmarshal_marshal_configDataList cts (fun cd hcd x hx => hv cd hcd x hx)
  rcases idle with _ | d <;> by_cases hcts : cts = [] <;>
    simp [marshalConfig, unmarshalConfig, jsonField, List.lookup, hcts, hl]

/-- C9 witness: the round-trip at a concrete config with an idle timeout and a
nonempty opaque entry. -/
theorem config_json_roundtrip_witness :
    ValidConfig ⟨"p", "tcp", some 5, [⟨"k", [1, 255, 7]⟩]⟩
  ∧ unmarshalConfig (marshalConfig ⟨"p", "tcp", some 5, [⟨"k", [1, 255, 7]⟩]⟩) =
      some ⟨"p", "tcp", some 5, [⟨"k", [1, 255, 7]⟩]⟩ :=
  ⟨by decide, config_json_roundtrip ⟨"p", "tcp", some 5, [⟨"k", [1, 255, 7]⟩]⟩ (by decide)⟩

end GoPluginFramework
